import Mathlib

/-!
Verification of the telemetry definitions generator
(src/telemetry/vscode/src/generate.ts).

The TypeScript source is shallowly embedded below.  JavaScript strings are
Lean strings; JavaScript exceptions are modelled with the `Except` monad; the
module-level mutable array `exportedTypes` is modelled by threading an
explicit registry value through every function that reads or writes it.
Schema values (types declared in the external `./parser` module) are modelled
from the data model of the specification.
-/

deriving instance DecidableEq for Except

namespace TelemetryGen

/-- Errors thrown by the generator.  `lookupError` models a thrown
JavaScript `Error` (the missing-metadata-type lookup in `getTypeOrThrow`);
`typeError` models a thrown JavaScript `TypeError`.  Each carries the
thrown message string. -/
inductive GenError where
  | lookupError (msg : String)
  | typeError (msg : String)
deriving DecidableEq

/-- Modelled from the spec: `MetadataType` of the external parser module
(spec section 3) — a named, reusable field kind, optionally an enumeration
of allowed values, optionally a primitive kind tag. -/
structure MetadataType where
  name : String
  description : String := ""
  allowedValues : Option (List String) := none
  type : Option String := none
deriving DecidableEq

/-- Modelled from the spec: `MetricMetadata` of the external parser module
(spec section 3, there called `MetricMetadataRef`) — the reference a metric
makes to a metadata type by name, with an optional required flag. -/
structure MetricMetadata where
  type : String
  required : Option Bool := none
  description : Option String := none
deriving DecidableEq

/-- Modelled from the spec: `Metric` of the external parser module
(spec section 3). -/
structure Metric where
  name : String
  description : String := ""
  unit : Option String := none
  passive : Option Bool := none
  trackPerformance : Option Bool := none
  metadata : Option (List MetricMetadata) := none
deriving DecidableEq

/-- Modelled from the spec: `MetricDefinitionRoot` of the external parser
module (spec section 3) — one input document, and also the merged result. -/
structure MetricDefinitionRoot where
  types : List MetadataType := []
  metrics : List Metric := []
deriving DecidableEq

/-- Modelled from the spec: `MetricMetadataType` of the external parser
module — a metadata type together with a resolved `required` flag.  The
source builds these with object spreads such as
`generateMetadataProperty(... required: false, ...getTypeOrThrow(types, name) ...)`. -/
structure MetricMetadataType extends MetadataType where
  required : Bool
deriving DecidableEq

/-- Property signature structure of the emitted interface declarations
(ts-morph `PropertySignatureStructure`, restricted to the fields the
generator sets). -/
structure PropertySignature where
  isReadonly : Bool := false
  hasQuestionToken : Bool := false
  name : String
  type : String
  docs : List String := []
deriving DecidableEq

/-- Parameter of an emitted method (ts-morph parameter structure). -/
structure ParameterDecl where
  name : String
  type : String
  hasQuestionToken : Bool := false
deriving DecidableEq

/-- Method signature of an emitted interface (ts-morph method structure). -/
structure MethodDecl where
  name : String
  returnType : String
  typeParameters : List String := []
  parameters : List ParameterDecl := []
  docs : List String := []
deriving DecidableEq

/-- Emitted interface declaration (ts-morph `InterfaceDeclarationStructure`).
The `extendsClause` field models the `extends` heritage clause. -/
structure InterfaceDecl where
  name : String
  isExported : Bool := false
  extendsClause : List String := []
  typeParameters : List String := []
  properties : List PropertySignature := []
  methods : List MethodDecl := []
  docs : List String := []
deriving DecidableEq

/-- Emitted type alias declaration (ts-morph `TypeAliasDeclarationStructure`). -/
structure TypeAliasDecl where
  name : String
  type : String
  isExported : Bool := false
  typeParameters : List String := []
deriving DecidableEq

/-- Emitted class get-accessor (used for the per-metric accessors of
`TelemetryBase`). -/
structure GetAccessorDecl where
  name : String
  docs : List String := []
  returnType : String
  statements : String
deriving DecidableEq

/-- Emitted class method (used for the abstract `getMetric` method). -/
structure ClassMethodDecl where
  name : String
  returnType : String
  parameters : List ParameterDecl := []
  isAbstract : Bool := false
deriving DecidableEq

/-- Emitted class declaration (ts-morph `ClassDeclarationStructure`,
restricted to the fields the generator sets). -/
structure ClassDecl where
  name : String
  isAbstract : Bool := false
  isExported : Bool := false
  methods : List ClassMethodDecl := []
  getAccessors : List GetAccessorDecl := []
deriving DecidableEq

/-- Registry of synthesized literal-union type aliases: the model of the
module-level mutable array `exportedTypes` in the source. -/
abbrev Registry := List TypeAliasDecl

/-- Single quotes around a string, as produced by the template literals of
the source when emitting string-literal types and object keys. -/
def sQuote (v : String) : String := "\x27" ++ v ++ "\x27"

/-- Splits a character list at every occurrence of the separator character,
the model of JavaScript `s.split(sep)` for a one-character separator: the
empty string splits to one empty segment, and adjacent separators produce
empty segments. -/
def splitOnChar (c : Char) : List Char → List (List Char)
  | [] => [[]]
  | x :: xs =>
    match splitOnChar c xs with
    | [] => if x == c then [[], []] else [[x]]
    | h :: t => if x == c then [] :: h :: t else (x :: h) :: t

/-- String-level wrapper of `splitOnChar`, modelling `s.split('_')` and
friends. -/
def splitChar (c : Char) (s : String) : List String :=
  (splitOnChar c s.data).map String.mk

/-- Sequential map over a list with a callback that may throw, the model of
JavaScript `Array.prototype.map` when the callback can raise: the first
exception aborts the whole map. -/
def mapExcept {α β : Type} (f : α → Except GenError β) : List α → Except GenError (List β)
  | [] => .ok []
  | a :: as =>
    match f a with
    | .error e => .error e
    | .ok b =>
      match mapExcept f as with
      | .error e => .error e
      | .ok bs => .ok (b :: bs)

/-- Models `toTitleCase` of the source:
`s.replace(s[0], s[0].toUpperCase())`.  The first occurrence of the
one-character pattern `s[0]` in `s` is at position 0, so the call uppercases
the first character.  On the empty string `s[0]` is `undefined` and the
`.toUpperCase()` call throws a `TypeError`. -/
def toTitleCase (s : String) : Except GenError String :=
  match s.data with
  | [] => .error (.typeError "Cannot read properties of undefined (reading \x27toUpperCase\x27)")
  | c :: cs => .ok (String.mk (c.toUpper :: cs))

/-- Models `snakeCaseToPascalCase` of the source:
the underscore split mapped over `toTitleCase` and joined with the empty
separator.  The map callback throws as soon as a segment is empty. -/
def snakeCaseToPascalCase (s : String) : Except GenError String :=
  match mapExcept toTitleCase (splitChar '_' s) with
  | .error e => .error e
  | .ok parts => .ok (String.join parts)

/-- Models `metricToTypeName` of the source: converts the snake_case name
of the metric to PascalCase. -/
def metricToTypeName (m : Metric) : Except GenError String :=
  snakeCaseToPascalCase m.name

/-- Models `getArgsFromMetadata` of the source.  For an enumerated metadata
type it derives the alias name with `toTitleCase`, reuses a previously
registered alias of that name, or registers a new union-of-literals alias
(the `exportedTypes.push` call is the append).  Otherwise it dispatches on
the primitive kind tag; an unrecognized tag throws a `TypeError`. -/
def getArgsFromMetadata (st : Registry) (m : MetadataType) : Except GenError (Registry × String) :=
  match m.allowedValues with
  | some vs =>
    match toTitleCase m.name with
    | .error e => .error e
    | .ok name =>
      match st.find? (fun tt => tt.name == name) with
      | some _ => .ok (st, name)
      | none =>
        .ok (st ++ [{ name := name, isExported := true,
                      type := String.intercalate " | " (vs.map sQuote) }], name)
  | none =>
    match m.type with
    | none => .ok (st, "string")
    | some t =>
      if t == "string" then .ok (st, "string")
      else if t == "double" then .ok (st, "number")
      else if t == "int" then .ok (st, "number")
      else if t == "boolean" then .ok (st, "boolean")
      else .error (.typeError ("unknown type " ++ t ++ " in metadata " ++ m.name))

/-- Models `getTypeOrThrow` of the source: looks a metadata type up by name
in the merged type set and, when it is absent, throws an Error whose
message is: did not find type, followed by the name. -/
def getTypeOrThrow (types : List MetadataType) (name : String) : Except GenError MetadataType :=
  match types.find? (fun t => t.name == name) with
  | some t => .ok t
  | none => .error (.lookupError ("did not find type: " ++ name))

/-- The `baseName` constant of the source. -/
def baseName : String := "MetricBase"

/-- The fixed `commonMetadata` list of the source: metadata-type names every
generated metric type inherits through the base type. -/
def commonMetadata : List String :=
  ["awsAccount", "awsRegion", "duration", "httpStatusCode", "reason",
   "reasonDesc", "requestId", "requestServiceType", "result", "source"]

/-- The `optionalMetadata` constant of the source: the subset of
`commonMetadata` a caller may still supply in `.record()` calls. -/
def optionalMetadata : List String := ["awsRegion"]

/-- The fixed `passive` property constant of the source. -/
def passive : PropertySignature :=
  { isReadonly := true, hasQuestionToken := true, name := "passive", type := "boolean",
    docs := ["A flag indicating that the metric was not caused by the user."] }

/-- The fixed `trackPerformance` property constant of the source. -/
def trackPerformance : PropertySignature :=
  { isReadonly := true, hasQuestionToken := true, name := "trackPerformance", type := "boolean",
    docs := ["A flag indicating that the metric should track run-time performance information"] }

/-- The fixed `traceId` property constant of the source. -/
def traceId : PropertySignature :=
  { isReadonly := true, hasQuestionToken := true, name := "traceId", type := "string",
    docs := ["Unique identifier for the trace (a set of events) this metric belongs to"] }

/-- The fixed `metricId` property constant of the source. -/
def metricId : PropertySignature :=
  { isReadonly := true, hasQuestionToken := true, name := "metricId", type := "string",
    docs := ["Unique identifier for this metric"] }

/-- The fixed `parentId` property constant of the source. -/
def parentId : PropertySignature :=
  { isReadonly := true, hasQuestionToken := true, name := "parentId", type := "string",
    docs := ["Unique identifier of the parent of this metric"] }

/-- The fixed deprecated `value` property constant of the source. -/
def value : PropertySignature :=
  { isReadonly := true, hasQuestionToken := true, name := "value", type := "number",
    docs := ["@deprecated Arbitrary \"value\" of the metric."] }

/-- The fixed `runtimeMetricDefinition` interface constant of the source:
the shape of one entry of the runtime definitions table. -/
def runtimeMetricDefinition : InterfaceDecl :=
  { name := "MetricDefinition", isExported := true,
    properties :=
      [{ name := "unit", type := "string", isReadonly := true },
       { name := "passive", type := "boolean", isReadonly := true },
       { name := "trackPerformance", type := "boolean", isReadonly := true },
       { name := "requiredMetadata", type := "readonly string[]", isReadonly := true }] }

/-- Models `getMetricMetadata` of the source: the metadata references of
the metric whose type name is not in the common-metadata set (absent
metadata defaults to the empty list). -/
def getMetricMetadata (metric : Metric) : List MetricMetadata :=
  (metric.metadata.getD []).filter (fun m => !commonMetadata.contains m.type)

/-- Models `generateMetadataProperty` of the source: one property signature,
typed via `getArgsFromMetadata`, optional iff `required` is false. -/
def generateMetadataProperty (st : Registry) (metadata : MetricMetadataType) :
    Except GenError (Registry × PropertySignature) :=
  match getArgsFromMetadata st metadata.toMetadataType with
  | .error e => .error e
  | .ok (st', ty) =>
    .ok (st', { isReadonly := true, name := metadata.name, docs := [metadata.description],
                type := ty, hasQuestionToken := !metadata.required })

/-- Sequential state-threading map over a list, the model of the
`Array.prototype.map` calls of the source whose callback both may throw and may mutate the
module-level `exportedTypes` array. -/
def stMapM {α β : Type} (f : Registry → α → Except GenError (Registry × β)) :
    Registry → List α → Except GenError (Registry × List β)
  | st, [] => .ok (st, [])
  | st, a :: as =>
    match f st a with
    | .error e => .error e
    | .ok (st1, b) =>
      match stMapM f st1 as with
      | .error e => .error e
      | .ok (st2, bs) => .ok (st2, b :: bs)

/-- The `toProp` closure of `generateMetricBase`: resolves one common
metadata name with `required` fixed to false. -/
def baseProp (types : List MetadataType) (st : Registry) (name : String) :
    Except GenError (Registry × PropertySignature) :=
  match getTypeOrThrow types name with
  | .error e => .error e
  | .ok t => generateMetadataProperty st { toMetadataType := t, required := false }

/-- Models `generateMetricBase` of the source: the shared base interface,
one optional property per common metadata name plus the fixed
client-internal properties. -/
def generateMetricBase (st : Registry) (types : List MetadataType) :
    Except GenError (Registry × InterfaceDecl) :=
  match stMapM (baseProp types) st commonMetadata with
  | .error e => .error e
  | .ok (st', props) =>
    .ok (st', { name := baseName, isExported := true,
                properties := props ++ [passive, value, trackPerformance, traceId, metricId, parentId] })

/-- The property-building closure of `generateMetricInterface`: resolves one
non-common metadata reference, `required` defaulting to true. -/
def interfaceProp (types : List MetadataType) (st : Registry) (mm : MetricMetadata) :
    Except GenError (Registry × PropertySignature) :=
  match getTypeOrThrow types mm.type with
  | .error e => .error e
  | .ok t => generateMetadataProperty st { toMetadataType := t, required := mm.required.getD true }

/-- Models `generateMetricInterface` of the source: the per-metric interface
extending the base type, with one property per non-common metadata
reference. -/
def generateMetricInterface (st : Registry) (metric : Metric) (types : List MetadataType) :
    Except GenError (Registry × InterfaceDecl) :=
  match metricToTypeName metric with
  | .error e => .error e
  | .ok ifaceName =>
    match stMapM (interfaceProp types) st (getMetricMetadata metric) with
    | .error e => .error e
    | .ok (st', props) =>
      .ok (st', { name := ifaceName, extendsClause := [baseName], isExported := true,
                  properties := props })

/-- One entry of the emitted runtime definitions table, the structured
reading of the object literal
`unit: ..., passive: ..., trackPerformance: ..., requiredMetadata: [...]`
built by `generateDefinitions`. -/
structure MetricDefinition where
  unit : String
  passive : Bool
  trackPerformance : Bool
  requiredMetadata : List String
deriving DecidableEq

/-- The runtime record `generateDefinitions` emits for one metric: defaulted
unit and flags, and the type names of the non-common references whose
required flag is true or absent (the quoting around each name is part of
the serialization, not of the data). -/
def metricDefinitionEntry (m : Metric) : MetricDefinition :=
  { unit := m.unit.getD "None",
    passive := m.passive.getD false,
    trackPerformance := m.trackPerformance.getD false,
    requiredMetadata := ((getMetricMetadata m).filter (fun mm => mm.required.getD true)).map
      (fun mm => mm.type) }

/-- Models `generateDefinitions` of the source: the runtime definitions
table, one entry per metric keyed by the metric name. -/
def generateDefinitions (metrics : List Metric) : List (String × MetricDefinition) :=
  metrics.map (fun m => (m.name, metricDefinitionEntry m))

/-- Models `generateMetricRecorder` of the source (the argument is unused in
the source as well): the `Metric<T>` recorder interface with `emit` and
`run`. -/
def generateMetricRecorder (metadataType : TypeAliasDecl) : InterfaceDecl :=
  { name := "Metric", isExported := true,
    typeParameters := ["T extends " ++ baseName ++ " = " ++ baseName],
    properties := [{ name := "name", type := "string", isReadonly := true }],
    methods :=
      [{ name := "emit", returnType := "void",
         parameters := [{ name := "data", type := "T", hasQuestionToken := true }],
         docs := ["Sends the metric to the telemetry service"] },
       { name := "run", returnType := "U", typeParameters := ["U"],
         parameters := [{ name := "fn", type := "(span: Span<T>) => U" }],
         docs := ["Executes a callback, automatically sending the metric after completion"] }] }

/-- Models `generateTelemetryHelper` of the source: the abstract
`TelemetryBase` class with one get-accessor per metric delegating to the
abstract `getMetric`. -/
def generateTelemetryHelper (recorder : InterfaceDecl) (metrics : List Metric) :
    Except GenError ClassDecl :=
  match mapExcept (fun m =>
      (match metricToTypeName m with
      | .error e => .error e
      | .ok tn =>
        .ok { name := m.name, docs := [m.description],
              returnType := recorder.name ++ "<" ++ tn ++ ">",
              statements := "return this.getMetric(" ++ sQuote m.name ++ ")" }
       : Except GenError GetAccessorDecl)) metrics with
  | .error e => .error e
  | .ok accessors =>
    .ok { name := "TelemetryBase", isAbstract := true, isExported := true,
          methods := [{ name := "getMetric", returnType := recorder.name,
                        parameters := [{ name := "name", type := "string" }],
                        isAbstract := true }],
          getAccessors := accessors }

/-- Models `generateMetricShapeMap` of the source: the `MetricShapes`
interface mapping each quoted metric name to its interface type. -/
def generateMetricShapeMap (metrics : List Metric) : Except GenError InterfaceDecl :=
  match mapExcept (fun m =>
      (match metricToTypeName m with
      | .error e => .error e
      | .ok tn => .ok { isReadonly := true, name := sQuote m.name, type := tn }
       : Except GenError PropertySignature)) metrics with
  | .error e => .error e
  | .ok props => .ok { name := "MetricShapes", isExported := true, properties := props }

/-- The `MetricName` type alias of `generateFile`. -/
def metricNameAlias : TypeAliasDecl :=
  { isExported := true, name := "MetricName", type := "keyof MetricShapes" }

/-- The `Metadata<T>` type alias of `generateFile`. -/
def metadataTypeAlias : TypeAliasDecl :=
  { isExported := true, name := "Metadata",
    typeParameters := ["T extends " ++ baseName],
    type := "Partial<Omit<T, keyof " ++ baseName ++ "> | Partial<Pick<" ++ baseName ++ ", "
      ++ String.intercalate " | " (optionalMetadata.map sQuote) ++ ">>>" }

/-- The `Span<T>` interface of `generateFile`. -/
def spanInterface : InterfaceDecl :=
  { name := "Span", isExported := true, typeParameters := ["T"],
    docs := ["Represents a telemetry span for tracking and recording metric data."],
    methods := [{ name := "record", returnType := "this",
                  parameters := [{ name := "data", type := "Partial<T>" }] }] }

/-- The emitted source unit: every declaration `generateFile` adds, grouped
by declaration kind in the order the add calls happen (the formatting and
physical serialization are a collaborator concern). -/
structure SourceFile where
  interfaces : List InterfaceDecl := []
  typeAliases : List TypeAliasDecl := []
  variableStatements : List (List (String × MetricDefinition)) := []
  classes : List ClassDecl := []
deriving DecidableEq

/-- Models `generateFile` of the source.  The incoming registry is the
content of the module-level `exportedTypes` array when the call starts; the
returned registry is its content afterwards.  The `file.addTypeAliases(exportedTypes)`
call happens after the base and per-metric interfaces are built, so the
emitted aliases are the registry at that point, followed by the `MetricName`
and `Metadata` aliases added later. -/
def generateFile (st : Registry) (telemetryJson : MetricDefinitionRoot) :
    Except GenError (Registry × SourceFile) :=
  match generateMetricBase st telemetryJson.types with
  | .error e => .error e
  | .ok (st1, base) =>
    match stMapM (fun s m => generateMetricInterface s m telemetryJson.types) st1
        telemetryJson.metrics with
    | .error e => .error e
    | .ok (st2, metricInterfaces) =>
      match generateMetricShapeMap telemetryJson.metrics with
      | .error e => .error e
      | .ok metricsMap =>
        match generateTelemetryHelper (generateMetricRecorder metadataTypeAlias)
            telemetryJson.metrics with
        | .error e => .error e
        | .ok helper =>
          .ok (st2,
            { interfaces := [base] ++ metricInterfaces
                ++ [runtimeMetricDefinition, metricsMap, spanInterface,
                    generateMetricRecorder metadataTypeAlias],
              typeAliases := st2 ++ [metricNameAlias, metadataTypeAlias],
              variableStatements := [generateDefinitions telemetryJson.metrics],
              classes := [helper] })

/-- Helper of the lodash `uniqBy` model: drops every element whose key was
already seen, keeping first occurrences in order. -/
def uniqByAux {α : Type} (key : α → String) (seen : List String) : List α → List α
  | [] => []
  | a :: as =>
    if seen.contains (key a) then uniqByAux key seen as
    else a :: uniqByAux key (key a :: seen) as

/-- Models the lodash uniqBy call keyed on the name field: deduplicates by
key, keeping the
first occurrence of each key in input order. -/
def uniqBy {α : Type} (key : α → String) (l : List α) : List α := uniqByAux key [] l

/-- Models the merge step of `generate`: concatenate the validated input
documents in order (the `reduce` with `push`), then deduplicate types and
metrics by name with first-one-wins (`_.uniqBy`). -/
def mergeDefinitions (inputs : List MetricDefinitionRoot) : MetricDefinitionRoot :=
  { types := uniqBy (fun t => t.name) ((inputs.map (fun i => i.types)).flatten),
    metrics := uniqBy (fun m => m.name) ((inputs.map (fun i => i.metrics)).flatten) }

/-- Models `generate` of the source, minus the file reading, external
validation, prettier formatting and file writing: merge the validated input
documents and generate the output source unit.  When the result is an error
the source throws before `writeFile`, so no output file is produced. -/
def generate (st : Registry) (inputs : List MetricDefinitionRoot) :
    Except GenError (Registry × SourceFile) :=
  generateFile st (mergeDefinitions inputs)

/-- Truth of a generator step having succeeded. -/
def genOk {α : Type} : Except GenError α → Bool
  | .ok _ => true
  | .error _ => false

/-- Truth of an error being the lookup error thrown by `getTypeOrThrow`
(as opposed to a `TypeError`). -/
def GenError.isLookup : GenError → Bool
  | .lookupError _ => true
  | .typeError _ => false

/-- Truth of a generator step having failed with the lookup error thrown by
`getTypeOrThrow` (as opposed to a `TypeError`). -/
def isLookupError {α : Type} : Except GenError α → Bool
  | .error e => e.isLookup
  | .ok _ => false

/-- Truth of a metadata type resolving without a `TypeError`: either it is
enumerated, or its kind tag is one of the recognized primitives. -/
def kindOk (t : MetadataType) : Bool :=
  t.allowedValues.isSome || t.type == none || t.type == some "string"
    || t.type == some "double" || t.type == some "int" || t.type == some "boolean"

/-- Substring test on character lists: some tail of the haystack starts with
the needle. -/
def containsList (hay needle : List Char) : Bool :=
  hay.tails.any (fun t => needle.isPrefixOf t)

/-- Substring test on strings, used to state that an error message names a
schema entity. -/
def containsStr (hay needle : String) : Bool :=
  containsList hay.data needle.data

/-- The only error `toTitleCase` throws. -/
def undefinedUpperError : GenError :=
  .typeError "Cannot read properties of undefined (reading \x27toUpperCase\x27)"

/-- A step function that only ever appends to the registry. -/
def StepMono {α β : Type} (f : Registry → α → Except GenError (Registry × β)) : Prop :=
  ∀ s a s' b, f s a = .ok (s', b) → ∃ tail, s' = s ++ tail

/-- The `requiredMetadata` list exactly as claim C2 words it (written from the
claim, for comparison with the code): the type names of every metadata
reference on the metric whose required flag is true, explicit or defaulted,
with no further filtering. -/
def claimedRequiredMetadata (m : Metric) : List String :=
  ((m.metadata.getD []).filter (fun r => r.required.getD true)).map (fun r => r.type)

/-- The runtime record as the amended claim C2 words it (written from the
amended claim, for comparison with the code): the declared unit or None, the
declared flags or false, and the type names of every metadata reference that
is not one of the ten common-metadata names and whose required flag is true
or defaulted, in declaration order. -/
def specMetricDefinition (m : Metric) : MetricDefinition :=
  { unit := m.unit.getD "None",
    passive := m.passive.getD false,
    trackPerformance := m.trackPerformance.getD false,
    requiredMetadata :=
      (((m.metadata.getD []).filter (fun r => !commonMetadata.contains r.type)).filter
          (fun r => r.required.getD true)).map (fun r => r.type) }

/-- Declarations of all ten common metadata names with default (string)
kind, used as concrete schema inputs. -/
def commonTypesExample : List MetadataType :=
  [{ name := "awsAccount" }, { name := "awsRegion" }, { name := "duration" },
   { name := "httpStatusCode" }, { name := "reason" }, { name := "reasonDesc" },
   { name := "requestId" }, { name := "requestServiceType" }, { name := "result" },
   { name := "source" }]

/-- Concrete schema input: types for the C1 witness. -/
def exC1types : List MetadataType := [{ name := "sampleField" }]

/-- Concrete schema input: a metric referencing one metric-specific field. -/
def exC1metric : Metric :=
  { name := "my_metric", metadata := some [{ type := "sampleField" }] }

/-- Concrete metric whose only metadata reference is the common name
`result` with an explicit required flag. -/
def exC2metric : Metric :=
  { name := "my_metric", metadata := some [{ type := "result", required := some true }] }

/-- Concrete schema whose metric references the undeclared type name
`missing`. -/
def exC3root : MetricDefinitionRoot :=
  { types := commonTypesExample,
    metrics := [{ name := "my_metric", metadata := some [{ type := "missing" }] }] }

/-- Concrete metadata type with the unrecognized kind tag `weird`. -/
def exC4meta : MetadataType := { name := "myMeta", type := some "weird" }

/-- Concrete schema in which the metric `my_metric` owns the bad-kind
metadata type `myMeta`. -/
def exC4root : MetricDefinitionRoot :=
  { types := commonTypesExample ++ [exC4meta],
    metrics := [{ name := "my_metric", metadata := some [{ type := "myMeta" }] }] }

/-- Concrete enumerated metadata type with a snake_case name. -/
def exC5meta : MetadataType := { name := "foo_bar", allowedValues := some ["a", "b"] }

/-- Concrete enumerated metadata type with a camelCase name. -/
def exC6meta : MetadataType :=
  { name := "result", allowedValues := some ["Succeeded", "Failed"] }

/-- Concrete first document declaring the type `x` and the metric `m`. -/
def exC7A : MetricDefinitionRoot :=
  { types := [{ name := "x", type := some "int" }],
    metrics := [{ name := "m", unit := some "Count" }] }

/-- Concrete second document redeclaring the type `x` and the metric `m`
differently. -/
def exC7B : MetricDefinitionRoot :=
  { types := [{ name := "x", type := some "boolean" }],
    metrics := [{ name := "m" }] }

/-- Concrete type list declaring `awsAccount` with a bad kind while the
other nine common names are missing. -/
def exC8types : List MetadataType := [{ name := "awsAccount", type := some "weird" }]

/-- Concrete previously registered union alias. -/
def exC10alias : TypeAliasDecl :=
  { name := "Result", isExported := true,
    type := sQuote "Succeeded" ++ " | " ++ sQuote "Failed" }

/-- Concrete schema containing no enumerated metadata type at all. -/
def exC10root : MetricDefinitionRoot := { types := commonTypesExample, metrics := [] }

/-! Supporting lemmas about the embedded operations. -/

theorem toTitleCase_empty : toTitleCase "" = .error undefinedUpperError := rfl

theorem toTitleCase_error_eq {s : String} {e : GenError}
    (h : toTitleCase s = .error e) : e = undefinedUpperError := by
  unfold toTitleCase at h
  cases hd : s.data with
  | nil => rw [hd] at h; exact (Except.error.injEq _ _).mp h.symm
  | cons c cs => rw [hd] at h; cases h

theorem toTitleCase_ok {s : String} (h : s ≠ "") : ∃ r, toTitleCase s = .ok r := by
  unfold toTitleCase
  cases hd : s.data with
  | nil =>
    exact absurd (by cases s; simp_all) h
  | cons c cs => exact ⟨_, rfl⟩

theorem mapExcept_toTitleCase_error {l : List String} (h : "" ∈ l) :
    mapExcept toTitleCase l = .error undefinedUpperError := by
  induction l with
  | nil => cases h
  | cons x xs ih =>
    unfold mapExcept
    rcases List.mem_cons.mp h with rfl | hx
    · rw [toTitleCase_empty]
    · cases hf : toTitleCase x with
      | error e => rw [toTitleCase_error_eq hf]
      | ok b => rw [ih hx]

theorem mapExcept_toTitleCase_ok {l : List String} (h : ∀ x ∈ l, x ≠ "") :
    ∃ bs, mapExcept toTitleCase l = .ok bs := by
  induction l with
  | nil => exact ⟨[], rfl⟩
  | cons x xs ih =>
    obtain ⟨b, hb⟩ := toTitleCase_ok (h x (List.mem_cons_self x xs))
    obtain ⟨bs, hbs⟩ := ih (fun y hy => h y (List.mem_cons_of_mem x hy))
    exact ⟨b :: bs, by unfold mapExcept; rw [hb, hbs]⟩

theorem mapExcept_ok_mem {α β : Type} {f : α → Except GenError β} :
    ∀ {l : List α} {bs : List β}, mapExcept f l = .ok bs → ∀ a ∈ l, ∃ b, f a = .ok b := by
  intro l
  induction l with
  | nil => intro bs _ a ha; cases ha
  | cons x xs ih =>
    intro bs h a ha
    unfold mapExcept at h
    cases hf : f x with
    | error e => simp only [hf] at h; exact Except.noConfusion h
    | ok b =>
      simp only [hf] at h
      cases hrest : mapExcept f xs with
      | error e => simp only [hrest] at h; exact Except.noConfusion h
      | ok bs' =>
        rcases List.mem_cons.mp ha with rfl | ha'
        · exact ⟨b, hf⟩
        · exact ih hrest a ha'

theorem stMapM_ok_mem {α β : Type} {f : Registry → α → Except GenError (Registry × β)} :
    ∀ {l : List α} {st st' : Registry} {bs : List β},
    stMapM f st l = .ok (st', bs) → ∀ a ∈ l, ∃ s r, f s a = .ok r := by
  intro l
  induction l with
  | nil => intro st st' bs _ a ha; cases ha
  | cons x xs ih =>
    intro st st' bs h a ha
    unfold stMapM at h
    cases hf : f st x with
    | error e => simp only [hf] at h; exact Except.noConfusion h
    | ok p =>
      obtain ⟨s1, b⟩ := p
      simp only [hf] at h
      cases hrest : stMapM f s1 xs with
      | error e => simp only [hrest] at h; exact Except.noConfusion h
      | ok q =>
        rcases List.mem_cons.mp ha with rfl | ha'
        · exact ⟨st, _, hf⟩
        · obtain ⟨s2, bs'⟩ := q
          exact ih hrest a ha'

theorem stMapM_mono {α β : Type} {f : Registry → α → Except GenError (Registry × β)}
    (hf : StepMono f) :
    ∀ {l : List α} {st st' : Registry} {bs : List β},
    stMapM f st l = .ok (st', bs) → ∃ tail, st' = st ++ tail := by
  intro l
  induction l with
  | nil =>
    intro st st' bs h
    unfold stMapM at h
    cases h
    exact ⟨[], by simp⟩
  | cons x xs ih =>
    intro st st' bs h
    unfold stMapM at h
    cases hstep : f st x with
    | error e => simp only [hstep] at h; exact Except.noConfusion h
    | ok p =>
      obtain ⟨s1, b⟩ := p
      simp only [hstep] at h
      cases hrest : stMapM f s1 xs with
      | error e => simp only [hrest] at h; exact Except.noConfusion h
      | ok q =>
        obtain ⟨s2, bs'⟩ := q
        simp only [hrest] at h
        cases h
        obtain ⟨t1, ht1⟩ := hf st x s1 b hstep
        obtain ⟨t2, ht2⟩ := ih hrest
        exact ⟨t1 ++ t2, by rw [ht2, ht1, List.append_assoc]⟩

theorem find?_typeName_eq {l : List MetadataType} {n : String} {t : MetadataType}
    (h : l.find? (fun u => u.name == n) = some t) : t.name = n := by
  have hb := List.find?_some h
  exact eq_of_beq hb

theorem getArgsFromMetadata_mono {st : Registry} {t : MetadataType} {st' : Registry} {r : String}
    (h : getArgsFromMetadata st t = .ok (st', r)) : ∃ tail, st' = st ++ tail := by
  unfold getArgsFromMetadata at h
  split at h
  · split at h
    · exact Except.noConfusion h
    · split at h
      · cases h; exact ⟨[], by simp⟩
      · cases h; exact ⟨_, rfl⟩
  · split at h
    · cases h; exact ⟨[], by simp⟩
    · split at h
      · cases h; exact ⟨[], by simp⟩
      · split at h
        · cases h; exact ⟨[], by simp⟩
        · split at h
          · cases h; exact ⟨[], by simp⟩
          · split at h
            · cases h; exact ⟨[], by simp⟩
            · exact Except.noConfusion h

theorem getArgsFromMetadata_no_lookup (st : Registry) (t : MetadataType) :
    isLookupError (getArgsFromMetadata st t) = false := by
  unfold getArgsFromMetadata
  split
  · split
    · next e htc => rw [toTitleCase_error_eq htc]; rfl
    · split <;> rfl
  · split
    · rfl
    · split
      · rfl
      · split
        · rfl
        · split
          · rfl
          · split <;> rfl

theorem getArgsFromMetadata_ok_of_kindOk (st : Registry) {t : MetadataType}
    (hk : kindOk t = true) (hn : t.name ≠ "") :
    ∃ r, getArgsFromMetadata st t = .ok r := by
  unfold getArgsFromMetadata
  split
  · split
    · next e htc =>
      obtain ⟨nm, hnm⟩ := toTitleCase_ok hn
      rw [htc] at hnm
      exact Except.noConfusion hnm
    · split
      · exact ⟨_, rfl⟩
      · exact ⟨_, rfl⟩
  · next hAV =>
    split
    · exact ⟨_, rfl⟩
    · next tag htag =>
      unfold kindOk at hk
      rw [hAV, htag] at hk
      simp only [Option.isSome_none, Bool.false_or, beq_iff_eq, Option.some.injEq,
        reduceCtorEq, decide_eq_true_eq, Bool.or_eq_true] at hk
      rcases hk with (((hF | rfl) | rfl) | rfl) | rfl
      · exact hF.elim
      · exact ⟨_, rfl⟩
      · exact ⟨_, rfl⟩
      · exact ⟨_, rfl⟩
      · exact ⟨_, rfl⟩

theorem generateMetadataProperty_shape {st : Registry} {md : MetricMetadataType}
    {st' : Registry} {p : PropertySignature}
    (h : generateMetadataProperty st md = .ok (st', p)) :
    p.name = md.toMetadataType.name ∧ p.hasQuestionToken = !md.required := by
  unfold generateMetadataProperty at h
  split at h
  · exact Except.noConfusion h
  · cases h; exact ⟨rfl, rfl⟩

theorem generateMetadataProperty_mono {st : Registry} {md : MetricMetadataType}
    {st' : Registry} {p : PropertySignature}
    (h : generateMetadataProperty st md = .ok (st', p)) : ∃ tail, st' = st ++ tail := by
  unfold generateMetadataProperty at h
  split at h
  · exact Except.noConfusion h
  · next s ty hr =>
    cases h
    exact getArgsFromMetadata_mono hr

theorem generateMetadataProperty_ok (st : Registry) (md : MetricMetadataType)
    (hk : kindOk md.toMetadataType = true) (hn : md.toMetadataType.name ≠ "") :
    ∃ r, generateMetadataProperty st md = .ok r := by
  obtain ⟨⟨s, ty⟩, hr⟩ := getArgsFromMetadata_ok_of_kindOk st hk hn
  unfold generateMetadataProperty
  rw [hr]
  exact ⟨_, rfl⟩

theorem getArgsFromMetadata_error_kind {st : Registry} {t : MetadataType} {e : GenError}
    (h : getArgsFromMetadata st t = .error e) : ∃ msg, e = GenError.typeError msg := by
  have hg := getArgsFromMetadata_no_lookup st t
  rw [h] at hg
  cases e with
  | lookupError m => simp [isLookupError, GenError.isLookup] at hg
  | typeError m => exact ⟨m, rfl⟩

theorem generateMetadataProperty_no_lookup (st : Registry) (md : MetricMetadataType) :
    isLookupError (generateMetadataProperty st md) = false := by
  unfold generateMetadataProperty
  split
  · next e hr =>
    obtain ⟨msg, rfl⟩ := getArgsFromMetadata_error_kind hr
    rfl
  · rfl

theorem baseProp_ok_found {types : List MetadataType} {s : Registry} {n : String}
    {r : Registry × PropertySignature} (h : baseProp types s n = .ok r) :
    (types.find? (fun u => u.name == n)).isSome = true := by
  unfold baseProp at h
  split at h
  · exact Except.noConfusion h
  · next t ht =>
    unfold getTypeOrThrow at ht
    split at ht
    · next u hu => rw [hu]; rfl
    · exact Except.noConfusion ht

theorem interfaceProp_ok_found {types : List MetadataType} {s : Registry} {mm : MetricMetadata}
    {r : Registry × PropertySignature} (h : interfaceProp types s mm = .ok r) :
    (types.find? (fun u => u.name == mm.type)).isSome = true := by
  unfold interfaceProp at h
  split at h
  · exact Except.noConfusion h
  · next t ht =>
    unfold getTypeOrThrow at ht
    split at ht
    · next u hu => rw [hu]; rfl
    · exact Except.noConfusion ht

theorem self_mem_tails {α : Type} (l : List α) : l ∈ l.tails := by
  cases l <;> simp [List.tails]

theorem isPrefixOf_append_self (a b : List Char) : a.isPrefixOf (a ++ b) = true :=
  List.isPrefixOf_iff_prefix.mpr (List.prefix_append a b)

theorem containsList_append (xs ys zs : List Char) :
    containsList (xs ++ (ys ++ zs)) ys = true := by
  induction xs with
  | nil =>
    unfold containsList
    simp only [List.nil_append]
    rw [List.any_eq_true]
    exact ⟨ys ++ zs, self_mem_tails _, isPrefixOf_append_self ys zs⟩
  | cons x xs ih =>
    unfold containsList at ih ⊢
    simp only [List.cons_append, List.tails_cons, List.any_cons]
    rw [ih]
    simp

theorem containsStr_append_right (a b : String) : containsStr (a ++ b) b = true := by
  unfold containsStr
  rw [String.data_append]
  have h := containsList_append a.data b.data []
  simpa using h

theorem containsStr_middle (a b c : String) : containsStr (a ++ b ++ c) b = true := by
  unfold containsStr
  rw [String.data_append, String.data_append, List.append_assoc]
  exact containsList_append a.data b.data c.data

theorem generateMetricBase_ok_found {st : Registry} {types : List MetadataType}
    {r : Registry × InterfaceDecl} (h : generateMetricBase st types = .ok r) :
    ∀ n ∈ commonMetadata, (types.find? (fun u => u.name == n)).isSome = true := by
  unfold generateMetricBase at h
  split at h
  · exact Except.noConfusion h
  · next st' props hscan =>
    intro n hn
    obtain ⟨s, rp, hsp⟩ := stMapM_ok_mem hscan n hn
    exact baseProp_ok_found hsp

theorem generateMetricInterface_ok_found {st : Registry} {metric : Metric}
    {types : List MetadataType} {r : Registry × InterfaceDecl}
    (h : generateMetricInterface st metric types = .ok r) :
    ∀ mm ∈ getMetricMetadata metric,
      (types.find? (fun u => u.name == mm.type)).isSome = true := by
  unfold generateMetricInterface at h
  split at h
  · exact Except.noConfusion h
  · split at h
    · exact Except.noConfusion h
    · next st' props hscan =>
      intro mm hmm
      obtain ⟨s, rp, hsp⟩ := stMapM_ok_mem hscan mm hmm
      exact interfaceProp_ok_found hsp

theorem interfaceScan_shape {types : List MetadataType} :
    ∀ {rs : List MetricMetadata} {st st' : Registry} {props : List PropertySignature},
    stMapM (interfaceProp types) st rs = .ok (st', props) →
    (props.filter (fun p => !p.hasQuestionToken)).map (fun p => p.name)
      = (rs.filter (fun r => r.required.getD true)).map (fun r => r.type) := by
  intro rs
  induction rs with
  | nil =>
    intro st st' props h
    unfold stMapM at h
    cases h
    rfl
  | cons mm rs ih =>
    intro st st' props h
    unfold stMapM at h
    cases hstep : interfaceProp types st mm with
    | error e => simp only [hstep] at h; exact Except.noConfusion h
    | ok p =>
      obtain ⟨s1, b⟩ := p
      simp only [hstep] at h
      cases hrest : stMapM (interfaceProp types) s1 rs with
      | error e => simp only [hrest] at h; exact Except.noConfusion h
      | ok q =>
        obtain ⟨s2, bs⟩ := q
        simp only [hrest] at h
        cases h
        unfold interfaceProp at hstep
        split at hstep
        · exact Except.noConfusion hstep
        · next t ht =>
          obtain ⟨hbname, hbq⟩ := generateMetadataProperty_shape hstep
          have htn : t.name = mm.type := by
            unfold getTypeOrThrow at ht
            split at ht
            · next u hu =>
              cases ht
              exact find?_typeName_eq hu
            · exact Except.noConfusion ht
          simp only [List.filter_cons, hbq, Bool.not_not]
          cases hreq : mm.required.getD true with
          | true =>
            simp only [hreq, if_true, List.map_cons]
            rw [hbname, htn, ih hrest]
          | false =>
            simp only [hreq, Bool.false_eq_true, if_false]
            exact ih hrest

theorem baseScan_lookup_iff (types : List MetadataType) :
    ∀ (names : List String) (st : Registry),
    (∀ n ∈ names, n ≠ "") →
    (∀ n ∈ names, Option.all kindOk (types.find? (fun u => u.name == n)) = true) →
    (isLookupError (stMapM (baseProp types) st names) = true ↔
       ∃ n ∈ names, types.find? (fun u => u.name == n) = none) := by
  intro names
  induction names with
  | nil =>
    intro st hne hok
    unfold stMapM
    simp [isLookupError]
  | cons x xs ih =>
    intro st hne hok
    unfold stMapM
    cases hf : types.find? (fun u => u.name == x) with
    | none =>
      have hbp : baseProp types st x = .error (.lookupError ("did not find type: " ++ x)) := by
        unfold baseProp getTypeOrThrow
        rw [hf]
      simp only [hbp]
      constructor
      · intro _
        exact ⟨x, List.mem_cons_self x xs, hf⟩
      · intro _
        rfl
    | some t =>
      have hk : kindOk t = true := by
        have hx := hok x (List.mem_cons_self x xs)
        rw [hf] at hx
        simpa [Option.all] using hx
      have hnx : t.name ≠ "" := by
        rw [find?_typeName_eq hf]
        exact hne x (List.mem_cons_self x xs)
      have hbp : ∃ r, baseProp types st x = .ok r := by
        unfold baseProp getTypeOrThrow
        rw [hf]
        exact generateMetadataProperty_ok st { toMetadataType := t, required := false } hk hnx
      obtain ⟨⟨s1, p⟩, hp⟩ := hbp
      simp only [hp]
      have hIH := ih s1 (fun n hn => hne n (List.mem_cons_of_mem _ hn))
        (fun n hn => hok n (List.mem_cons_of_mem _ hn))
      cases hrest : stMapM (baseProp types) s1 xs with
      | error e =>
        rw [hrest] at hIH
        constructor
        · intro hl
          obtain ⟨n, hn, hnone⟩ := hIH.mp hl
          exact ⟨n, List.mem_cons_of_mem _ hn, hnone⟩
        · rintro ⟨n, hn, hnone⟩
          rcases List.mem_cons.mp hn with rfl | hn'
          · rw [hf] at hnone
            exact Option.noConfusion hnone
          · exact hIH.mpr ⟨n, hn', hnone⟩
      | ok q =>
        obtain ⟨s2, ps⟩ := q
        rw [hrest] at hIH
        constructor
        · intro hc
          exact absurd hc (by simp [isLookupError])
        · rintro ⟨n, hn, hnone⟩
          rcases List.mem_cons.mp hn with rfl | hn'
          · rw [hf] at hnone
            exact Option.noConfusion hnone
          · exact absurd (hIH.mpr ⟨n, hn', hnone⟩) (by simp [isLookupError])

theorem generateMetricBase_lookup_iff (st : Registry) (types : List MetadataType)
    (hok : ∀ n ∈ commonMetadata, Option.all kindOk (types.find? (fun u => u.name == n)) = true) :
    isLookupError (generateMetricBase st types) = true ↔
      ∃ n ∈ commonMetadata, types.find? (fun u => u.name == n) = none := by
  have hne : ∀ n ∈ commonMetadata, n ≠ "" := by decide
  have hscan := baseScan_lookup_iff types commonMetadata st hne hok
  unfold generateMetricBase
  cases hres : stMapM (baseProp types) st commonMetadata with
  | error e =>
    rw [hres] at hscan
    simp only [isLookupError] at hscan ⊢
    exact hscan
  | ok q =>
    obtain ⟨s, ps⟩ := q
    rw [hres] at hscan
    constructor
    · intro hc
      exact absurd hc (by simp [isLookupError])
    · intro hex
      exact absurd (hscan.mpr hex) (by simp [isLookupError])

theorem generateFile_ok_parts {st : Registry} {root : MetricDefinitionRoot}
    {r : Registry × SourceFile} (h : generateFile st root = .ok r) :
    (∃ rb, generateMetricBase st root.types = .ok rb) ∧
    (∀ m ∈ root.metrics, ∃ s ri, generateMetricInterface s m root.types = .ok ri) := by
  unfold generateFile at h
  split at h
  · exact Except.noConfusion h
  · next st1 base hbase =>
    split at h
    · exact Except.noConfusion h
    · next st2 ifaces hscan =>
      exact ⟨⟨_, hbase⟩, fun m hm => stMapM_ok_mem hscan m hm⟩

theorem snakeCaseToPascalCase_error {s : String} (h : "" ∈ splitChar '_' s) :
    snakeCaseToPascalCase s = .error undefinedUpperError := by
  unfold snakeCaseToPascalCase
  rw [mapExcept_toTitleCase_error h]

theorem snakeCaseToPascalCase_ok {s : String} (h : ∀ seg ∈ splitChar '_' s, seg ≠ "") :
    ∃ r, snakeCaseToPascalCase s = .ok r := by
  obtain ⟨bs, hbs⟩ := mapExcept_toTitleCase_ok h
  unfold snakeCaseToPascalCase
  rw [hbs]
  exact ⟨_, rfl⟩

theorem metricToTypeName_error {m : Metric} (h : "" ∈ splitChar '_' m.name) :
    metricToTypeName m = .error undefinedUpperError := by
  unfold metricToTypeName
  exact snakeCaseToPascalCase_error h

theorem generateMetricInterface_badName {st : Registry} {m : Metric}
    (types : List MetadataType) (h : "" ∈ splitChar '_' m.name) :
    generateMetricInterface st m types = .error undefinedUpperError := by
  unfold generateMetricInterface
  rw [metricToTypeName_error h]

theorem getArgsFromMetadata_emptyName {st : Registry} {t : MetadataType}
    (hAV : t.allowedValues.isSome = true) (hn : t.name = "") :
    getArgsFromMetadata st t = .error undefinedUpperError := by
  unfold getArgsFromMetadata
  split
  · rw [hn, toTitleCase_empty]
  · next hv =>
    rw [hv] at hAV
    simp at hAV

theorem baseProp_mono (types : List MetadataType) : StepMono (baseProp types) := by
  intro s a s' b h
  unfold baseProp at h
  split at h
  · exact Except.noConfusion h
  · exact generateMetadataProperty_mono h

theorem interfaceProp_mono (types : List MetadataType) : StepMono (interfaceProp types) := by
  intro s a s' b h
  unfold interfaceProp at h
  split at h
  · exact Except.noConfusion h
  · exact generateMetadataProperty_mono h

theorem generateMetricBase_mono {st : Registry} {types : List MetadataType}
    {st' : Registry} {iface : InterfaceDecl}
    (h : generateMetricBase st types = .ok (st', iface)) : ∃ tail, st' = st ++ tail := by
  unfold generateMetricBase at h
  split at h
  · exact Except.noConfusion h
  · next s ps hscan =>
    cases h
    exact stMapM_mono (baseProp_mono types) hscan

theorem generateMetricInterface_mono {st : Registry} {m : Metric} {types : List MetadataType}
    {st' : Registry} {iface : InterfaceDecl}
    (h : generateMetricInterface st m types = .ok (st', iface)) : ∃ tail, st' = st ++ tail := by
  unfold generateMetricInterface at h
  split at h
  · exact Except.noConfusion h
  · split at h
    · exact Except.noConfusion h
    · next s ps hscan =>
      cases h
      exact stMapM_mono (interfaceProp_mono types) hscan

theorem generateFile_registry {st : Registry} {root : MetricDefinitionRoot}
    {st' : Registry} {f : SourceFile} (h : generateFile st root = .ok (st', f)) :
    (∃ tail, st' = st ++ tail) ∧
    f.typeAliases = st' ++ [metricNameAlias, metadataTypeAlias] := by
  unfold generateFile at h
  split at h
  · exact Except.noConfusion h
  · next st1 base hbase =>
    split at h
    · exact Except.noConfusion h
    · next st2 ifaces hscan =>
      split at h
      · exact Except.noConfusion h
      · next mmap hmap =>
        split at h
        · exact Except.noConfusion h
        · next helper hhelp =>
          cases h
          obtain ⟨t1, ht1⟩ := generateMetricBase_mono hbase
          obtain ⟨t2, ht2⟩ :=
            stMapM_mono (fun s a s' b hsab => generateMetricInterface_mono hsab) hscan
          exact ⟨⟨t1 ++ t2, by rw [ht2, ht1, List.append_assoc]⟩, rfl⟩

theorem uniqByAux_find? {α : Type} (key : α → String) (n : String) :
    ∀ (l : List α) (seen : List String), seen.contains n = false →
    (uniqByAux key seen l).find? (fun a => key a == n) = l.find? (fun a => key a == n) := by
  intro l
  induction l with
  | nil => intro seen _; rfl
  | cons a as ih =>
    intro seen hseen
    unfold uniqByAux
    cases hs : seen.contains (key a) with
    | true =>
      simp only [hs, if_true]
      rw [ih seen hseen]
      have hka : (key a == n) = false := by
        apply beq_eq_false_iff_ne.mpr
        intro hEq
        rw [hEq, hseen] at hs
        exact Bool.noConfusion hs
      simp only [List.find?, hka]
    | false =>
      simp only [hs, Bool.false_eq_true, if_false]
      cases hka : (key a == n) with
      | true =>
        simp only [List.find?, hka]
      | false =>
        simp only [List.find?, hka]
        apply ih
        have hne : key a ≠ n := beq_eq_false_iff_ne.mp hka
        simp [List.contains] at hseen ⊢
        exact ⟨fun hEq => hne hEq.symm, hseen⟩

theorem uniqByAux_mem_key {α : Type} (key : α → String) :
    ∀ (l : List α) (seen : List String) (u : α), u ∈ uniqByAux key seen l →
      l.find? (fun a => key a == key u) = some u ∧ seen.contains (key u) = false := by
  intro l
  induction l with
  | nil => intro seen u hu; cases hu
  | cons a as ih =>
    intro seen u hu
    unfold uniqByAux at hu
    cases hs : seen.contains (key a) with
    | true =>
      simp only [hs, if_true] at hu
      obtain ⟨hfind, hcont⟩ := ih seen u hu
      have hka : (key a == key u) = false := by
        apply beq_eq_false_iff_ne.mpr
        intro hEq
        rw [hEq, hcont] at hs
        exact Bool.noConfusion hs
      exact ⟨by simp only [List.find?, hka]; exact hfind, hcont⟩
    | false =>
      simp only [hs, Bool.false_eq_true, if_false] at hu
      rcases List.mem_cons.mp hu with rfl | hu'
      · exact ⟨by simp [List.find?], hs⟩
      · obtain ⟨hfind, hcont⟩ := ih (key a :: seen) u hu'
        simp [List.contains] at hcont
        obtain ⟨hne, hcont'⟩ := hcont
        have hka : (key a == key u) = false := by
          apply beq_eq_false_iff_ne.mpr
          intro hEq
          exact hne hEq.symm
        refine ⟨by simp only [List.find?, hka]; exact hfind, ?_⟩
        simpa [List.contains] using hcont'

theorem uniqBy_first_wins {α : Type} (key : α → String) (l₁ l₂ : List α) (n : String) (a : α)
    (h : l₁.find? (fun x => key x == n) = some a) :
    a ∈ uniqBy key (l₁ ++ l₂)
      ∧ ∀ u ∈ uniqBy key (l₁ ++ l₂), key u = n → u = a := by
  have hcat : (l₁ ++ l₂).find? (fun x => key x == n) = some a := by
    rw [List.find?_append, h]
    rfl
  have hfind : (uniqBy key (l₁ ++ l₂)).find? (fun x => key x == n) = some a := by
    unfold uniqBy
    rw [uniqByAux_find? key n (l₁ ++ l₂) [] rfl]
    exact hcat
  constructor
  · exact List.mem_of_find?_eq_some hfind
  · intro u hu hun
    obtain ⟨hufind, _⟩ := uniqByAux_mem_key key (l₁ ++ l₂) [] u hu
    rw [hun, hcat] at hufind
    exact (Option.some_inj.mp hufind).symm

/-! Claim theorems. -/

/-- Claim C1: for every metric whose per-metric interface generation
succeeds, the names of the non-optional properties the interface declares
beyond the base type are exactly (and in the same order as) the
`requiredMetadata` names of the runtime record of the metric — the static and
runtime views of the metric never disagree. -/
theorem c1_static_runtime_agree {st st' : Registry} {m : Metric}
    {types : List MetadataType} {iface : InterfaceDecl}
    (h : generateMetricInterface st m types = .ok (st', iface)) :
    (iface.properties.filter (fun p => !p.hasQuestionToken)).map (fun p => p.name)
      = (metricDefinitionEntry m).requiredMetadata := by
  unfold generateMetricInterface at h
  split at h
  · exact Except.noConfusion h
  · split at h
    · exact Except.noConfusion h
    · next s ps hscan =>
      cases h
      exact interfaceScan_shape hscan

/-- Witness for C1 at a concrete metric with one required metric-specific
field. -/
theorem c1_static_runtime_agree_witness :
    match generateMetricInterface [] exC1metric exC1types with
    | .ok (_, iface) =>
        (iface.properties.filter (fun p => !p.hasQuestionToken)).map (fun p => p.name)
          = (metricDefinitionEntry exC1metric).requiredMetadata
    | .error _ => False := by
  cases h : generateMetricInterface [] exC1metric exC1types with
  | error e =>
    have hok : genOk (generateMetricInterface [] exC1metric exC1types) = true := by decide
    rw [h] at hok
    exact Bool.noConfusion hok
  | ok p =>
    obtain ⟨st', iface⟩ := p
    exact c1_static_runtime_agree h

/-- Counterexample to C2 as stated: on a metric whose only metadata
reference is the common name `result` with `required := true`, the emitted
emitted runtime record has an empty `requiredMetadata`, not the list of every
required reference the claim promises. -/
theorem c2_runtime_record_counterexample :
    (metricDefinitionEntry exC2metric).requiredMetadata
      ≠ claimedRequiredMetadata exC2metric := by
  decide

/-- Claim C2 (amended): for every metric, the emitted runtime record is the
declared unit or None, the declared passive and trackPerformance flags or
false, and the ordered type names of every metadata reference that is not a
common-metadata name and whose required flag is true, explicit or
defaulted. -/
theorem c2_runtime_record (metrics : List Metric) :
    generateDefinitions metrics = metrics.map (fun m => (m.name, specMetricDefinition m)) := by
  unfold generateDefinitions
  apply List.map_congr_left
  intro m _
  unfold metricDefinitionEntry specMetricDefinition getMetricMetadata
  rfl

/-- Counterexample to C3 as stated: generation on a schema whose metric
`my_metric` references the undeclared type `missing` fails with an error
that names the missing type name only — the message does not name the
metric. -/
theorem c3_missing_type_counterexample :
    generateFile [] exC3root = .error (.lookupError "did not find type: missing")
      ∧ containsStr "did not find type: missing" "my_metric" = false := by
  exact ⟨by decide, by decide⟩

/-- Claim C3 (amended): for every metric that references a metadata-type
name absent from the merged type set, generation fails (so no output file
is produced); the lookup failure of the reference names the missing type name,
but not the metric. -/
theorem c3_missing_type (st : Registry) (root : MetricDefinitionRoot) (m : Metric)
    (mm : MetricMetadata) (hm : m ∈ root.metrics) (href : mm ∈ m.metadata.getD [])
    (hmissing : root.types.find? (fun u => u.name == mm.type) = none) :
    genOk (generateFile st root) = false
      ∧ getTypeOrThrow root.types mm.type
          = .error (.lookupError ("did not find type: " ++ mm.type))
      ∧ containsStr ("did not find type: " ++ mm.type) mm.type = true := by
  refine ⟨?_, ?_, ?_⟩
  · cases hgen : generateFile st root with
    | error e => rfl
    | ok r =>
      exfalso
      obtain ⟨⟨rb, hbase⟩, hifaces⟩ := generateFile_ok_parts hgen
      cases hc : commonMetadata.contains mm.type with
      | true =>
        have hcm : mm.type ∈ commonMetadata := by simpa [List.contains] using hc
        have hfound := generateMetricBase_ok_found hbase mm.type hcm
        rw [hmissing] at hfound
        exact Bool.noConfusion hfound
      | false =>
        have hmem : mm ∈ getMetricMetadata m := by
          unfold getMetricMetadata
          apply List.mem_filter.mpr
          refine ⟨href, ?_⟩
          rw [hc]
          rfl
        obtain ⟨s, ri, hri⟩ := hifaces m hm
        have hfound := generateMetricInterface_ok_found hri mm hmem
        rw [hmissing] at hfound
        exact Bool.noConfusion hfound
  · unfold getTypeOrThrow
    rw [hmissing]
  · exact containsStr_append_right _ _

/-- Witness for C3 (amended) at the concrete schema of the counterexample. -/
theorem c3_missing_type_witness :
    genOk (generateFile [] exC3root) = false
      ∧ getTypeOrThrow exC3root.types "missing"
          = .error (.lookupError ("did not find type: " ++ "missing"))
      ∧ containsStr ("did not find type: " ++ "missing") "missing" = true :=
  c3_missing_type [] exC3root { name := "my_metric", metadata := some [{ type := "missing" }] }
    { type := "missing" } (by decide) (by decide) (by decide)

/-- Counterexample to C4 as stated: the full generation run on a schema
whose metric `my_metric` owns the bad-kind metadata type `myMeta` throws a
`TypeError` naming the metadata type and the unknown kind, but the message
does not name the owning metric. -/
theorem c4_unknown_kind_counterexample :
    generateFile [] exC4root = .error (.typeError "unknown type weird in metadata myMeta")
      ∧ containsStr "unknown type weird in metadata myMeta" "my_metric" = false := by
  exact ⟨by decide, by decide⟩

/-- Claim C4 (amended): for every metadata type without allowedValues,
resolution maps string or absent to the string type, double or int to the
numeric type, boolean to the boolean type; any other declared kind fails
with a TypeError whose message names the offending metadata type and the
unknown kind — not the owning metric. -/
theorem c4_kind_dispatch (st : Registry) (t : MetadataType) (hAV : t.allowedValues = none) :
    ((t.type = none ∨ t.type = some "string") → getArgsFromMetadata st t = .ok (st, "string"))
  ∧ ((t.type = some "double" ∨ t.type = some "int") → getArgsFromMetadata st t = .ok (st, "number"))
  ∧ (t.type = some "boolean" → getArgsFromMetadata st t = .ok (st, "boolean"))
  ∧ (∀ k, t.type = some k → k ≠ "string" → k ≠ "double" → k ≠ "int" → k ≠ "boolean" →
      getArgsFromMetadata st t
          = .error (.typeError ("unknown type " ++ k ++ " in metadata " ++ t.name))
        ∧ containsStr ("unknown type " ++ k ++ " in metadata " ++ t.name) t.name = true
        ∧ containsStr ("unknown type " ++ k ++ " in metadata " ++ t.name) k = true) := by
  refine ⟨?_, ?_, ?_, ?_⟩
  · rintro (ht | ht) <;> unfold getArgsFromMetadata <;> rw [hAV, ht] <;> rfl
  · rintro (ht | ht) <;> unfold getArgsFromMetadata <;> rw [hAV, ht] <;> rfl
  · intro ht
    unfold getArgsFromMetadata
    rw [hAV, ht]
    rfl
  · intro k htk h1 h2 h3 h4
    have b1 : (k == "string") = false := beq_eq_false_iff_ne.mpr h1
    have b2 : (k == "double") = false := beq_eq_false_iff_ne.mpr h2
    have b3 : (k == "int") = false := beq_eq_false_iff_ne.mpr h3
    have b4 : (k == "boolean") = false := beq_eq_false_iff_ne.mpr h4
    refine ⟨?_, containsStr_append_right _ _, ?_⟩
    · simp only [getArgsFromMetadata, hAV, htk, b1, b2, b3, b4, Bool.false_eq_true, if_false]
    · have hassoc : "unknown type " ++ k ++ " in metadata " ++ t.name
          = "unknown type " ++ k ++ (" in metadata " ++ t.name) := by
        rw [String.append_assoc]
      rw [hassoc]
      exact containsStr_middle "unknown type " k (" in metadata " ++ t.name)

/-- Witness for C4 (amended) at the concrete bad-kind metadata type. -/
theorem c4_kind_dispatch_witness :
    getArgsFromMetadata [] exC4meta
        = .error (.typeError ("unknown type " ++ "weird" ++ " in metadata " ++ exC4meta.name))
      ∧ containsStr ("unknown type " ++ "weird" ++ " in metadata " ++ exC4meta.name)
          exC4meta.name = true
      ∧ containsStr ("unknown type " ++ "weird" ++ " in metadata " ++ exC4meta.name)
          "weird" = true :=
  (c4_kind_dispatch [] exC4meta rfl).2.2.2 "weird" rfl
    (by decide) (by decide) (by decide) (by decide)

/-- Counterexample to C5 as stated: resolving the enumerated metadata type
`foo_bar` registers and returns the union name `Foo_bar`, which differs
from PascalCase `FooBar`. -/
theorem c5_union_name_counterexample :
    getArgsFromMetadata [] exC5meta
        = .ok ([{ name := "Foo_bar", isExported := true,
                  type := "\x27a\x27 | \x27b\x27" }], "Foo_bar")
      ∧ snakeCaseToPascalCase "foo_bar" = .ok "FooBar"
      ∧ "Foo_bar" ≠ "FooBar" := by
  exact ⟨by decide, by decide, by decide⟩

/-- Claim C5 (amended): for an enumerated metadata type whose derived union
name (the metadata-type name with its first character uppercased — not full
PascalCase) is not yet registered, resolution appends exactly one union
alias of that name whose type is each allowed value as a distinct quoted
string literal, joined in declaration order, and returns that name. -/
theorem c5_union_registration (st : Registry) (t : MetadataType) (vs : List String) (n : String)
    (hAV : t.allowedValues = some vs) (hname : toTitleCase t.name = .ok n)
    (hfresh : st.find? (fun d => d.name == n) = none) :
    getArgsFromMetadata st t
      = .ok (st ++ [{ name := n, isExported := true,
                      type := String.intercalate " | " (vs.map sQuote) }], n) := by
  simp only [getArgsFromMetadata, hAV, hname, hfresh]

/-- Witness for C5 (amended) at the concrete enumerated metadata type. -/
theorem c5_union_registration_witness :
    getArgsFromMetadata [] exC5meta
      = .ok ([] ++ [{ name := "Foo_bar", isExported := true,
                      type := String.intercalate " | " (["a", "b"].map sQuote) }], "Foo_bar") :=
  c5_union_registration [] exC5meta ["a", "b"] "Foo_bar" rfl (by decide) rfl

/-- Claim C6: resolving the same enumerated metadata-type name twice is
idempotent: the second resolution returns exactly the name the first one
returned and leaves the registry unchanged, so at most one union type is
emitted per distinct name. -/
theorem c6_idempotent (st st' : Registry) (t₁ t₂ : MetadataType) (n : String)
    (h₁ : t₁.allowedValues.isSome = true) (h₂ : t₂.allowedValues.isSome = true)
    (hname : t₂.name = t₁.name)
    (hfst : getArgsFromMetadata st t₁ = .ok (st', n)) :
    getArgsFromMetadata st' t₂ = .ok (st', n) := by
  unfold getArgsFromMetadata at hfst
  split at hfst
  · next vs hv =>
    split at hfst
    · exact Except.noConfusion hfst
    · next nm hnm =>
      split at hfst
      · next d hfind =>
        cases hfst
        unfold getArgsFromMetadata
        cases hv₂ : t₂.allowedValues with
        | none =>
          rw [hv₂] at h₂
          simp at h₂
        | some vs₂ =>
          simp only [hname, hnm, hfind]
      · next hfind =>
        cases hfst
        unfold getArgsFromMetadata
        cases hv₂ : t₂.allowedValues with
        | none =>
          rw [hv₂] at h₂
          simp at h₂
        | some vs₂ =>
          simp only [hname, hnm]
          rw [List.find?_append, hfind]
          simp [List.find?, Option.orElse]
  · next hv =>
    rw [hv] at h₁
    simp at h₁

/-- Witness for C6: resolving `result` twice from an empty registry. -/
theorem c6_idempotent_witness :
    getArgsFromMetadata
        [{ name := "Result", isExported := true,
           type := String.intercalate " | " (["Succeeded", "Failed"].map sQuote) }] exC6meta
      = .ok ([{ name := "Result", isExported := true,
                type := String.intercalate " | " (["Succeeded", "Failed"].map sQuote) }],
             "Result") :=
  c6_idempotent [] _ exC6meta exC6meta "Result" (by decide) (by decide) rfl (by decide)

/-- Claim C7: merging an ordered sequence of documents deduplicates types
and metrics by name keeping the first occurrence: when documents A and B
both declare an entity named n, the merged result contains the definition
from A and every merged entity named n is that definition. -/
theorem c7_first_wins (A B : MetricDefinitionRoot) (n : String) :
    (∀ t, A.types.find? (fun u => u.name == n) = some t →
        t ∈ (mergeDefinitions [A, B]).types
          ∧ ∀ u ∈ (mergeDefinitions [A, B]).types, u.name = n → u = t)
  ∧ (∀ m, A.metrics.find? (fun u => u.name == n) = some m →
        m ∈ (mergeDefinitions [A, B]).metrics
          ∧ ∀ u ∈ (mergeDefinitions [A, B]).metrics, u.name = n → u = m) := by
  constructor
  · intro t ht
    exact uniqBy_first_wins (fun u => u.name) A.types (B.types ++ []) n t ht
  · intro m hm
    exact uniqBy_first_wins (fun u => u.name) A.metrics (B.metrics ++ []) n m hm

/-- Witness for C7 at two concrete documents both declaring `x` and `m`. -/
theorem c7_first_wins_witness :
    (({ name := "x", type := some "int" } : MetadataType) ∈ (mergeDefinitions [exC7A, exC7B]).types
      ∧ ∀ u ∈ (mergeDefinitions [exC7A, exC7B]).types, u.name = "x"
          → u = { name := "x", type := some "int" })
  ∧ (({ name := "m", unit := some "Count" } : Metric) ∈ (mergeDefinitions [exC7A, exC7B]).metrics
      ∧ ∀ u ∈ (mergeDefinitions [exC7A, exC7B]).metrics, u.name = "m"
          → u = { name := "m", unit := some "Count" }) :=
  ⟨(c7_first_wins exC7A exC7B "x").1 { name := "x", type := some "int" } (by decide),
   (c7_first_wins exC7A exC7B "m").2 { name := "m", unit := some "Count" } (by decide)⟩

/-- Counterexample to C8 as stated: with `awsAccount` declared with an
unrecognized kind and the other nine common names missing, base-type
generation does not throw a lookup error (it throws a TypeError first),
although at least one of the ten names is not declared. -/
theorem c8_base_lookup_counterexample :
    (∃ n ∈ commonMetadata, exC8types.find? (fun u => u.name == n) = none)
      ∧ isLookupError (generateMetricBase [] exC8types) = false := by
  exact ⟨⟨"awsRegion", by decide, by decide⟩, by decide⟩

/-- Claim C8 (amended): provided every declared metadata type looked up
under a common name resolves without a TypeError, base-type generation
throws a lookup error iff at least one of the ten common names is not
declared; and unconditionally, generation fails before producing any output
whenever one of the ten is missing. -/
theorem c8_base_lookup (st : Registry) (types : List MetadataType) :
    ((∀ n ∈ commonMetadata, Option.all kindOk (types.find? (fun u => u.name == n)) = true) →
       (isLookupError (generateMetricBase st types) = true ↔
         ∃ n ∈ commonMetadata, types.find? (fun u => u.name == n) = none))
  ∧ (∀ root : MetricDefinitionRoot, root.types = types →
       (∃ n ∈ commonMetadata, types.find? (fun u => u.name == n) = none) →
       genOk (generateFile st root) = false) := by
  constructor
  · intro hok
    exact generateMetricBase_lookup_iff st types hok
  · intro root hroot hex
    cases hgen : generateFile st root with
    | error e => rfl
    | ok r =>
      exfalso
      obtain ⟨⟨rb, hbase⟩, _⟩ := generateFile_ok_parts hgen
      obtain ⟨n, hn, hnone⟩ := hex
      rw [hroot] at hbase
      have hfound := generateMetricBase_ok_found hbase n hn
      rw [hnone] at hfound
      exact Bool.noConfusion hfound

/-- Witness for C8 (amended) at the empty type list. -/
theorem c8_base_lookup_witness :
    (isLookupError (generateMetricBase [] []) = true ↔
       ∃ n ∈ commonMetadata, ([] : List MetadataType).find? (fun u => u.name == n) = none)
  ∧ genOk (generateFile [] { types := [], metrics := [] }) = false :=
  ⟨(c8_base_lookup [] []).1 (by decide),
   (c8_base_lookup [] []).2 { types := [], metrics := [] } rfl ⟨"awsAccount", by decide, rfl⟩⟩

/-- Claim C9: name-to-identifier conversion is partial: a snake_case name
with an empty underscore-separated segment makes the conversion throw the
TypeError raised by uppercasing the first character of an empty string, and
a schema containing such a metric makes the whole generation fail; an
enumerated metadata type with an empty name fails the same way; and the
conversion succeeds whenever every segment is non-empty. -/
theorem c9_partial_names :
    (∀ s, "" ∈ splitChar '_' s → snakeCaseToPascalCase s = .error undefinedUpperError)
  ∧ (∀ (st : Registry) (root : MetricDefinitionRoot), ∀ m ∈ root.metrics,
       "" ∈ splitChar '_' m.name → genOk (generateFile st root) = false)
  ∧ (∀ (st : Registry) (t : MetadataType), t.allowedValues.isSome = true → t.name = "" →
       getArgsFromMetadata st t = .error undefinedUpperError)
  ∧ (∀ s, (∀ seg ∈ splitChar '_' s, seg ≠ "") → ∃ r, snakeCaseToPascalCase s = .ok r) := by
  refine ⟨?_, ?_, ?_, ?_⟩
  · exact fun s h => snakeCaseToPascalCase_error h
  · intro st root m hm hseg
    cases hgen : generateFile st root with
    | error e => rfl
    | ok r =>
      exfalso
      obtain ⟨_, hifaces⟩ := generateFile_ok_parts hgen
      obtain ⟨s, ri, hri⟩ := hifaces m hm
      rw [generateMetricInterface_badName root.types hseg] at hri
      exact Except.noConfusion hri
  · exact fun st t h1 h2 => getArgsFromMetadata_emptyName h1 h2
  · exact fun s h => snakeCaseToPascalCase_ok h

/-- Witness for C9 at concrete names. -/
theorem c9_partial_names_witness :
    snakeCaseToPascalCase "foo__bar" = .error undefinedUpperError
  ∧ genOk (generateFile []
      { types := commonTypesExample, metrics := [{ name := "bad__name" }] }) = false
  ∧ getArgsFromMetadata [] { name := "", allowedValues := some ["a"] }
      = .error undefinedUpperError
  ∧ ∃ r, snakeCaseToPascalCase "lambda_invoke" = .ok r :=
  ⟨c9_partial_names.1 "foo__bar" (by decide),
   c9_partial_names.2.1 []
     { types := commonTypesExample, metrics := [{ name := "bad__name" }] }
     { name := "bad__name" } (by decide) (by decide),
   c9_partial_names.2.2.1 [] { name := "", allowedValues := some ["a"] } rfl rfl,
   c9_partial_names.2.2.2 "lambda_invoke" (by decide)⟩

/-- Claim C10: the union-type registry is append-only and shared across
invocations: a previously registered alias survives any successful
generateFile call (the incoming registry is a prefix of the outgoing one)
and is emitted among the type aliases of that call, whatever the input schema
is. -/
theorem c10_registry_persistence (st : Registry) (root : MetricDefinitionRoot)
    (d : TypeAliasDecl) (hd : d ∈ st) :
    ∀ st' f, generateFile st root = .ok (st', f) →
      (∃ tail, st' = st ++ tail) ∧ d ∈ st' ∧ d ∈ f.typeAliases := by
  intro st' f h
  obtain ⟨⟨tail, htail⟩, haliases⟩ := generateFile_registry h
  refine ⟨⟨tail, htail⟩, ?_, ?_⟩
  · rw [htail]
    exact List.mem_append_left _ hd
  · rw [haliases, htail]
    exact List.mem_append_left _ (List.mem_append_left _ hd)

/-- Witness for C10: a registered `Result` alias is emitted by a later
generateFile call whose input schema declares no enumerated type at all. -/
theorem c10_registry_persistence_witness :
    match generateFile [exC10alias] exC10root with
    | .ok (st', f) =>
        (∃ tail, st' = [exC10alias] ++ tail) ∧ exC10alias ∈ st' ∧ exC10alias ∈ f.typeAliases
    | .error _ => False := by
  cases h : generateFile [exC10alias] exC10root with
  | error e =>
    have hok : genOk (generateFile [exC10alias] exC10root) = true := by decide
    rw [h] at hok
    exact Bool.noConfusion hok
  | ok p =>
    obtain ⟨st', f⟩ := p
    exact c10_registry_persistence [exC10alias] exC10root exC10alias (by decide) st' f h

end TelemetryGen
